import Mathlib

/-!
Verification of the socket core of the chat application
(`src/server/socket/index.js`).

The persistent store (MongoDB via Mongoose) is shallowly embedded as a
`Store` value; each Mongoose call of the handlers becomes a pure function
on `Store`.  A handler returns the updated store together with an ordered
trace of the actions it performed: store operations and outbound
`socket.io` emissions.  The `getUserDetailsFromToken` verifier is an
external collaborator and is passed in as a function, as the spec treats
it.  The `getConversation` helper lives in a helper file that is not part
of the sources here; it is modelled from the spec (see `getConversation`
below).
-/

namespace ChatApp

/-- A user document (`UserModel`), as read with `select('-password')`:
the password field is projected away before use, so it is not modelled. -/
structure UserRec where
  id : String
  name : String
  email : String
  profile_pic : String
deriving Repr, DecidableEq

/-- A message document (`MessageModel`): text / media fields, author
(`msgByUserId`) and the binary `seen` flag (default `false`). -/
structure Message where
  id : Nat
  text : String
  imageUrl : String
  videoUrl : String
  msgByUserId : String
  seen : Bool
deriving Repr, DecidableEq

/-- A conversation document (`ConversationModel`): the two participants as
stored (`sender`/`receiver`, an ordered record of an unordered pair), the
ordered list of message ids, and the Mongoose `updatedAt` timestamp. -/
structure Conversation where
  id : Nat
  sender : String
  receiver : String
  messages : List Nat
  updatedAt : Nat
deriving Repr, DecidableEq

/-- The persistent store: the three collections, an id allocator and a
logical clock used for the Mongoose timestamps. -/
structure Store where
  users : List UserRec
  conversations : List Conversation
  messages : List Message
  nextId : Nat
  now : Nat
deriving Repr, DecidableEq

def emptyStore : Store := ⟨[], [], [], 0, 0⟩

/-- The payload data of a `new message` event. -/
structure MsgData where
  sender : String
  receiver : String
  text : String
  imageUrl : String
  videoUrl : String
  msgByUserId : String
deriving Repr, DecidableEq

/-- `ConversationModel.findOne({$or: [{sender: a, receiver: b}, {sender: b, receiver: a}]})`. -/
def findConversation (st : Store) (a b : String) : Option Conversation :=
  st.conversations.find? fun c =>
    (c.sender == a && c.receiver == b) || (c.sender == b && c.receiver == a)

/-- `new ConversationModel({sender, receiver}).save()`: fresh id, empty
message list, timestamps set to the current clock. -/
def createConversation (st : Store) (a b : String) : Store × Conversation :=
  let c : Conversation := ⟨st.nextId, a, b, [], st.now⟩
  ({ st with
      conversations := st.conversations ++ [c]
      nextId := st.nextId + 1
      now := st.now + 1 }, c)

/-- `new MessageModel({text, imageUrl, videoUrl, msgByUserId}).save()`:
the `seen` flag defaults to `false`. -/
def saveMessage (st : Store) (d : MsgData) : Store × Message :=
  let m : Message := ⟨st.nextId, d.text, d.imageUrl, d.videoUrl, d.msgByUserId, false⟩
  ({ st with
      messages := st.messages ++ [m]
      nextId := st.nextId + 1
      now := st.now + 1 }, m)

/-- `ConversationModel.findByIdAndUpdate(cid, {$push: {messages: mid}})`;
Mongoose timestamps bump `updatedAt` on the update. -/
def pushMessage (st : Store) (cid mid : Nat) : Store :=
  { st with
      conversations := st.conversations.map fun c =>
        if c.id == cid then { c with messages := c.messages ++ [mid], updatedAt := st.now } else c
      now := st.now + 1 }

/-- `ConversationModel.findById(cid)`. -/
def findConversationById (st : Store) (cid : Nat) : Option Conversation :=
  st.conversations.find? fun c => c.id == cid

/-- `.populate('messages')`: resolve a list of message ids to the message
documents; dangling references are dropped. -/
def populate (st : Store) (ids : List Nat) : List Message :=
  ids.filterMap fun i => st.messages.find? fun m => m.id == i

/-- `conversation?.messages || []`. -/
def optMessages : Option Conversation → List Nat
  | some c => c.messages
  | none => []

/-- Descending order on `updatedAt` (most recently active first). -/
def convLE (a b : Conversation) : Prop := b.updatedAt ≤ a.updatedAt

instance : DecidableRel convLE := fun a b =>
  inferInstanceAs (Decidable (b.updatedAt ≤ a.updatedAt))

instance : IsTotal Conversation convLE :=
  ⟨fun a b => Nat.le_total b.updatedAt a.updatedAt⟩

instance : IsTrans Conversation convLE :=
  ⟨fun _ _ _ h1 h2 => Nat.le_trans h2 h1⟩

/-- Modelled from the spec: the `getConversation` helper (required from
`../helpers/getConversation`) is not among the sources here.  Per the spec,
`summariesFor(identity)` returns all conversations involving the identity,
ordered by last-updated descending (most recently active first). -/
def getConversation (st : Store) (who : String) : List Conversation :=
  List.insertionSort convLE
    (st.conversations.filter fun c => c.sender == who || c.receiver == who)

/-- The socket target of an emission: `io.to(room).emit`, `socket.emit`
(the requesting connection only), or `io.emit` (all connections). -/
inductive Target where
  | room (id : String)
  | requester
  | all
deriving Repr, DecidableEq

/-- The profile payload of a `message-user` emission. -/
structure UserProfile where
  id : String
  name : String
  email : String
  profile_pic : String
  online : Bool
deriving Repr, DecidableEq

/-- Emission payloads, by outbound event kind. -/
inductive Payload where
  | messages (ms : List Message)
  | conversations (cs : List Conversation)
  | onlineList (us : List String)
  | userProfile (u : UserProfile)
deriving Repr, DecidableEq

/-- One outbound emission: target, event name, payload. -/
structure Emit where
  target : Target
  event : String
  payload : Payload
deriving Repr, DecidableEq

/-- One observable action of a handler, in program order: a store
operation or an emission. -/
inductive Action where
  | findConv
  | saveConv
  | saveMsg
  | pushMsg
  | readConv
  | readSummaries (who : String)
  | findUser
  | updateSeen
  | emit (e : Emit)
deriving Repr, DecidableEq

def Action.isEmit : Action → Bool
  | .emit _ => true
  | _ => false

/-- Store mutations (writes); reads are not mutations. -/
def Action.isMutation : Action → Bool
  | .saveConv => true
  | .saveMsg => true
  | .pushMsg => true
  | .updateSeen => true
  | _ => false

def Action.emitOf : Action → Option Emit
  | .emit e => some e
  | _ => none

/-- The emissions of a trace, in order. -/
def emitsOf (tr : List Action) : List Emit :=
  tr.filterMap Action.emitOf

/-- `true` iff no store mutation occurs at or after the first emission of
the trace: everything is persisted before any fan-out. -/
def persistBeforeFanout (tr : List Action) : Bool :=
  ((tr.dropWhile fun a => !a.isEmit).filter Action.isMutation).isEmpty

/-- Failure injection for the `StoreError` analysis: the store calls of a
handler are numbered in execution order, and `stepFail failAt k` says
whether the `k`-th call throws.  `failAt = none` is the failure-free run. -/
def stepFail (failAt : Option Nat) (k : Nat) : Bool := failAt == some k

/-- The tail of the `new message` handler, after the conversation `c` has
been resolved: save the message, `$push` it onto the conversation, re-read
and populate the conversation, emit `message` to the sender's and the
receiver's rooms, recompute both summary lists with `getConversation`, and
emit `conversation` to both rooms.  `k` numbers the next store call; a
throwing call aborts the handler (the surrounding `catch` only logs), so
the store and trace so far are returned unchanged. -/
def newMessageCont (failAt : Option Nat) (k : Nat) (st : Store) (c : Conversation)
    (d : MsgData) (tr : List Action) : Store × List Action :=
  if stepFail failAt k then (st, tr) else
  let p := saveMessage st d
  let tr2 := tr ++ [Action.saveMsg]
  if stepFail failAt (k+1) then (p.1, tr2) else
  let st3 := pushMessage p.1 c.id p.2.id
  let tr3 := tr2 ++ [Action.pushMsg]
  if stepFail failAt (k+2) then (st3, tr3) else
  let pm := populate st3 (optMessages (findConversationById st3 c.id))
  let tr4 := tr3 ++ [Action.readConv,
    Action.emit ⟨Target.room d.sender, "message", Payload.messages pm⟩,
    Action.emit ⟨Target.room d.receiver, "message", Payload.messages pm⟩]
  if stepFail failAt (k+3) then (st3, tr4) else
  let sc := getConversation st3 d.sender
  let tr5 := tr4 ++ [Action.readSummaries d.sender]
  if stepFail failAt (k+4) then (st3, tr5) else
  let rc := getConversation st3 d.receiver
  (st3, tr5 ++ [Action.readSummaries d.receiver,
    Action.emit ⟨Target.room d.sender, "conversation", Payload.conversations sc⟩,
    Action.emit ⟨Target.room d.receiver, "conversation", Payload.conversations rc⟩])

/-- The `new message` handler (`socket.on('new message')`).  The handler
closes over the session's `userId` but never reads it: every store access
and every emission is driven by the event payload `d` alone.  Store calls
are find-one on the pair, an optional conversation save, the message save,
the `$push` update, the re-read, and the two `getConversation` reads. -/
def newMessageRun (userId : String) (failAt : Option Nat) (st : Store)
    (d : MsgData) : Store × List Action :=
  if stepFail failAt 0 then (st, []) else
  match findConversation st d.sender d.receiver with
  | some c => newMessageCont failAt 1 st c d [Action.findConv]
  | none =>
    if stepFail failAt 1 then (st, [Action.findConv]) else
    let p := createConversation st d.sender d.receiver
    newMessageCont failAt 2 p.1 p.2 d [Action.findConv, Action.saveConv]

/-- The conversation resolved by the `new message` handler: the existing
one for the unordered pair, else a freshly created one (find-then-create). -/
def resolveConversation (st : Store) (d : MsgData) : Store × Conversation :=
  match findConversation st d.sender d.receiver with
  | some c => (st, c)
  | none => createConversation st d.sender d.receiver

/-- The store actions of the resolve step. -/
def resolveActions (st : Store) (d : MsgData) : List Action :=
  match findConversation st d.sender d.receiver with
  | some _ => [Action.findConv]
  | none => [Action.findConv, Action.saveConv]

/-- The message ids the `seen` handler ranges over:
`conversation?.messages || []` for the viewer/target pair. -/
def seenIds (st : Store) (userId targetUserId : String) : List Nat :=
  optMessages (findConversation st userId targetUserId)

/-- The per-message effect of
`MessageModel.updateMany({_id: {$in: ids}, msgByUserId: t}, {$set: {seen: true}})`. -/
def seenApply (ids : List Nat) (t : String) (m : Message) : Message :=
  if m.id ∈ ids ∧ m.msgByUserId = t then { m with seen := true } else m

/-- The store after the `updateMany` of the `seen` handler. -/
def seenUpdate (st : Store) (ids : List Nat) (t : String) : Store :=
  { st with messages := st.messages.map (seenApply ids t) }

/-- The number of documents the `updateMany` actually modifies
(`modifiedCount`): matched by the filter and not yet seen. -/
def seenModCount (st : Store) (ids : List Nat) (t : String) : Nat :=
  (st.messages.filter fun m =>
    decide (m.id ∈ ids) && m.msgByUserId == t && !m.seen).length

/-- The `seen` handler (`socket.on('seen')`): find the conversation of the
viewer/target pair, `updateMany` the target-authored messages among its
message ids to `seen: true`, recompute both summary lists and emit
`conversation` to the viewer's and the target's rooms. -/
def seenHandler (st : Store) (userId targetUserId : String) : Store × List Action :=
  let ids := seenIds st userId targetUserId
  let st1 := seenUpdate st ids targetUserId
  let sc := getConversation st1 userId
  let rc := getConversation st1 targetUserId
  (st1, [Action.findConv, Action.updateSeen,
    Action.readSummaries userId, Action.readSummaries targetUserId,
    Action.emit ⟨Target.room userId, "conversation", Payload.conversations sc⟩,
    Action.emit ⟨Target.room targetUserId, "conversation", Payload.conversations rc⟩])

/-- The `message-page` handler (`socket.on('message-page')`): look the
target user up; if absent, return before emitting anything; otherwise emit
the profile (with the live online flag) and the shared conversation's
populated messages, both to the requesting socket only. -/
def messagePageHandler (st : Store) (online : List String)
    (userId targetUserId : String) : List Action :=
  match st.users.find? (fun u => u.id == targetUserId) with
  | none => [Action.findUser]
  | some u =>
    [Action.findUser,
     Action.emit ⟨Target.requester, "message-user",
       Payload.userProfile ⟨u.id, u.name, u.email, u.profile_pic, online.contains targetUserId⟩⟩,
     Action.findConv,
     Action.emit ⟨Target.requester, "message",
       Payload.messages (populate st (optMessages (findConversation st userId targetUserId)))⟩]

/-- The `sidebar` handler (`socket.on('sidebar')`): compute the summary
list and emit `conversation` to the requesting socket only. -/
def sidebarHandler (st : Store) (currentUserId : String) : List Action :=
  [Action.readSummaries currentUserId,
   Action.emit ⟨Target.requester, "conversation",
     Payload.conversations (getConversation st currentUserId)⟩]

/-- JavaScript `Set.add`: insertion-ordered, no duplicates. -/
def insertSet (u : String) (l : List String) : List String :=
  if u ∈ l then l else l ++ [u]

/-- The observable outcome of the connection handler for one inbound
connection. -/
structure ConnResult where
  online : List String
  trace : List Action
  handlersRegistered : Bool
  disconnected : Bool
deriving Repr, DecidableEq

/-- The connection handler (`io.on('connection')`) up to handler
registration: missing token or a verifier rejection forces
`socket.disconnect(true)` before any event handler is registered and
before the identity joins the room or the online set; on success the
identity is added and the `onlineUser` snapshot is broadcast to all. -/
def connectionHandler (verify : String → Option String) (token : Option String)
    (online : List String) : ConnResult :=
  match token with
  | none => ⟨online, [], false, true⟩
  | some tok =>
    match verify tok with
    | none => ⟨online, [], false, true⟩
    | some uid =>
      let online1 := insertSet uid online
      ⟨online1, [Action.emit ⟨Target.all, "onlineUser", Payload.onlineList online1⟩],
        true, false⟩

/-- A join (authenticated connect) or leave (disconnect) of a session. -/
inductive PEvent where
  | connect (sid : Nat) (uid : String)
  | disconnect (sid : Nat)
deriving Repr, DecidableEq

/-- Presence bookkeeping: the currently open bound sessions (socket id,
identity) and the `onlineUsers` set as the code maintains it. -/
structure PresenceState where
  sessions : List (Nat × String)
  online : List String
deriving Repr, DecidableEq

/-- One presence transition.  `connect` opens a session and runs
`onlineUsers.add(userId)`; `disconnect` closes the session and runs
`onlineUsers.delete(userId)` for that session's identity. -/
def pstep (st : PresenceState) : PEvent → PresenceState
  | .connect sid uid => ⟨st.sessions ++ [(sid, uid)], insertSet uid st.online⟩
  | .disconnect sid =>
    match st.sessions.find? (fun p => p.1 == sid) with
    | some p => ⟨st.sessions.filter (fun q => q.1 != sid), st.online.erase p.2⟩
    | none => st

/-- Run a sequence of presence events from the process-start state. -/
def runPresence (evs : List PEvent) : PresenceState :=
  evs.foldl pstep ⟨[], []⟩

/-- Well-formed event: a connect uses a fresh socket id and an identity
with no other open session (the spec scopes one session per identity); a
disconnect closes an open session. -/
def validEvent (st : PresenceState) : PEvent → Bool
  | .connect sid uid =>
    !(decide (sid ∈ st.sessions.map Prod.fst)) && !(decide (uid ∈ st.sessions.map Prod.snd))
  | .disconnect sid => decide (sid ∈ st.sessions.map Prod.fst)

/-- Well-formed event sequence from a given state. -/
def validFrom (st : PresenceState) : List PEvent → Bool
  | [] => true
  | e :: es => validEvent st e && validFrom (pstep st e) es

/-- The presence invariant the claim asserts: the online set has no
duplicates and is exactly the set of identities of open bound sessions. -/
def presenceInv (st : PresenceState) : Prop :=
  st.online.Nodup ∧ (st.sessions.map Prod.fst).Nodup ∧
  (st.sessions.map Prod.snd).Nodup ∧
  ∀ u, u ∈ st.online ↔ u ∈ st.sessions.map Prod.snd

/-- One interleaving of two concurrent `new message` handlers for the same
unordered pair, allowed by the scheduling model (handlers suspend at every
store call): both `findOne` calls complete before either `save`.  Each
handler then runs the find-then-create step of `newMessageRun` against the
store it observes. -/
def racedResolve (st : Store) (d1 d2 : MsgData) : Store :=
  let f1 := findConversation st d1.sender d1.receiver
  let f2 := findConversation st d2.sender d2.receiver
  let st1 := match f1 with
    | some _ => st
    | none => (createConversation st d1.sender d1.receiver).1
  match f2 with
  | some _ => st1
  | none => (createConversation st1 d2.sender d2.receiver).1

/-- The number of conversation rows stored for the unordered pair `{a,b}`. -/
def pairConvCount (st : Store) (a b : String) : Nat :=
  (st.conversations.filter fun c =>
    (c.sender == a && c.receiver == b) || (c.sender == b && c.receiver == a)).length

/-- The server-level state of one process: the store plus the
`onlineUsers` set. -/
structure ServerState where
  store : Store
  online : List String
deriving Repr, DecidableEq

/-- The `new message` handler at server level.  Its body never references
`onlineUsers`, so the presence set is passed through untouched. -/
def newMessageEvent (userId : String) (failAt : Option Nat) (s : ServerState)
    (d : MsgData) : ServerState × List Action :=
  (⟨(newMessageRun userId failAt s.store d).1, s.online⟩,
   (newMessageRun userId failAt s.store d).2)

/-- A small store with one A–B conversation holding one message from each
participant, neither seen yet. -/
def demoStore : Store :=
  ⟨[], [⟨0, "A", "B", [1, 2], 0⟩],
   [⟨1, "hi", "", "", "B", false⟩, ⟨2, "yo", "", "", "A", false⟩], 3, 1⟩

/-- The store the failure-free `new message` handler ends in: conversation
resolved, message saved, message id pushed onto the conversation. -/
def nmStore (st : Store) (d : MsgData) : Store :=
  pushMessage (saveMessage (resolveConversation st d).1 d).1
    (resolveConversation st d).2.id (saveMessage (resolveConversation st d).1 d).2.id

/-- The populated full message list the `new message` handler fans out:
the re-read conversation's messages resolved against the final store. -/
def nmMessages (st : Store) (d : MsgData) : List Message :=
  populate (nmStore st d)
    (optMessages (findConversationById (nmStore st d) (resolveConversation st d).2.id))

theorem stepFail_none (k : Nat) : stepFail none k = false := rfl

/-- C1: the find-then-create sequence of the `new message` handler is not
atomic.  In the interleaving where both concurrent handlers for the pair
{A,B} complete their `findOne` before either `save` (allowed, since
handlers suspend at every store call), both observe "absent" and both
create: two Conversation rows result for the unordered pair, violating the
at-most-one invariant; a single sequential run creates exactly one. -/
theorem raced_find_then_create_duplicates :
    pairConvCount
      (racedResolve emptyStore ⟨"A", "B", "hi", "", "", "A"⟩ ⟨"B", "A", "yo", "", "", "B"⟩)
      "A" "B" = 2 ∧
    pairConvCount ((newMessageRun "A" none emptyStore ⟨"A", "B", "hi", "", "", "A"⟩).1)
      "A" "B" = 1 := by
  decide

/-- C2: a connection with a missing credential token, or one whose token
the verifier rejects, is disconnected immediately: no event handler is
registered, the identity is not added to the online set, and nothing (in
particular no `onlineUser` broadcast) is emitted. -/
theorem connection_rejected_no_effects (verify : String → Option String)
    (token : Option String) (online : List String)
    (h : token = none ∨ ∃ t, token = some t ∧ verify t = none) :
    connectionHandler verify token online = ⟨online, [], false, true⟩ := by
  rcases h with h | ⟨t, rfl, hv⟩
  · subst h; rfl
  · simp [connectionHandler, hv]

theorem connection_rejected_no_effects_witness :
    ((none : Option String) = none ∨
      ∃ t, (none : Option String) = some t ∧ (fun _ => (none : Option String)) t = none) ∧
    connectionHandler (fun _ => none) none ["u1"] = ⟨["u1"], [], false, true⟩ :=
  ⟨Or.inl rfl, connection_rejected_no_effects (fun _ => none) none ["u1"] (Or.inl rfl)⟩

/-- C5 counterexample: a store failure during `new message` can strike
after the two `message` emissions but before the `conversation` ones (here
the `getConversation(sender)` read, call number 5, fails): 2 of the 4
emissions have already happened, so the fan-out is partial — neither zero
nor all of the event's emissions. -/
theorem store_failure_partial_fanout_cex :
    ¬((emitsOf (newMessageRun "A" (some 5) emptyStore ⟨"A", "B", "hi", "", "", "A"⟩).2).length = 0 ∨
      (emitsOf (newMessageRun "A" (some 5) emptyStore ⟨"A", "B", "hi", "", "", "A"⟩).2).length =
        (emitsOf (newMessageRun "A" none emptyStore ⟨"A", "B", "hi", "", "", "A"⟩).2).length) := by
  decide

/-- C6: the `message-page` handler emits nothing at all when the target
identity is not in the user store (a soft no-op), and when the target
exists it emits exactly the `message-user` profile event and the `message`
event, both to the requesting socket only. -/
theorem message_page_target_handling (st : Store) (online : List String)
    (userId targetUserId : String) :
    (st.users.find? (fun u => u.id == targetUserId) = none →
      emitsOf (messagePageHandler st online userId targetUserId) = []) ∧
    (∀ u, st.users.find? (fun u2 => u2.id == targetUserId) = some u →
      messagePageHandler st online userId targetUserId =
        [Action.findUser,
         Action.emit ⟨Target.requester, "message-user",
           Payload.userProfile ⟨u.id, u.name, u.email, u.profile_pic, online.contains targetUserId⟩⟩,
         Action.findConv,
         Action.emit ⟨Target.requester, "message",
           Payload.messages (populate st (optMessages (findConversation st userId targetUserId)))⟩] ∧
      ∀ e ∈ emitsOf (messagePageHandler st online userId targetUserId),
        e.target = Target.requester) := by
  constructor
  · intro h
    simp [messagePageHandler, h, emitsOf, Action.emitOf]
  · intro u hu
    have hlist : messagePageHandler st online userId targetUserId =
        [Action.findUser,
         Action.emit ⟨Target.requester, "message-user",
           Payload.userProfile ⟨u.id, u.name, u.email, u.profile_pic, online.contains targetUserId⟩⟩,
         Action.findConv,
         Action.emit ⟨Target.requester, "message",
           Payload.messages (populate st (optMessages (findConversation st userId targetUserId)))⟩] := by
      simp [messagePageHandler, hu]
    refine ⟨hlist, ?_⟩
    intro e he
    rw [hlist] at he
    simp [emitsOf, Action.emitOf] at he
    rcases he with rfl | rfl <;> rfl

theorem message_page_target_handling_witness :
    emptyStore.users.find? (fun u => u.id == "B") = none ∧
    emitsOf (messagePageHandler emptyStore [] "A" "B") = [] :=
  ⟨rfl, (message_page_target_handling emptyStore [] "A" "B").1 rfl⟩

/-- C7 counterexample: with two open sessions bound to the same identity,
one disconnect deletes the identity from the online set even though the
other session is still open: the snapshot no longer equals the set of
identities with an open bound session. -/
theorem presence_two_sessions_cex :
    "A" ∈ (runPresence [PEvent.connect 1 "A", PEvent.connect 2 "A",
        PEvent.disconnect 1]).sessions.map Prod.snd ∧
    "A" ∉ (runPresence [PEvent.connect 1 "A", PEvent.connect 2 "A",
        PEvent.disconnect 1]).online := by
  decide

/-- C9: the `new message` handler never reads the session's own
authenticated identity: its store result and its full action trace are
functions of the event payload and the store alone, so two different bound
sessions submitting the same payload produce identical effects, and the
stored message's author is whatever `msgByUserId` the payload claims. -/
theorem new_message_session_independent :
    (∀ (u1 u2 : String) (failAt : Option Nat) (st : Store) (d : MsgData),
      newMessageRun u1 failAt st d = newMessageRun u2 failAt st d) ∧
    (∀ (st : Store) (d : MsgData), (saveMessage st d).2.msgByUserId = d.msgByUserId) :=
  ⟨fun _ _ _ _ _ => rfl, fun _ _ => rfl⟩

/-- C10: when no conversation exists for the viewer/target pair, the
`seen` handler is not a silent no-op: the store is left unchanged and the
`updateMany` modifies zero messages, yet the handler still recomputes and
emits `conversation` summary lists to both the viewer's and the target's
rooms. -/
theorem seen_missing_conversation_emits (st : Store) (u t : String)
    (h : findConversation st u t = none) :
    (seenHandler st u t).1 = st ∧
    seenModCount st (seenIds st u t) t = 0 ∧
    emitsOf (seenHandler st u t).2 =
      [⟨Target.room u, "conversation", Payload.conversations (getConversation st u)⟩,
       ⟨Target.room t, "conversation", Payload.conversations (getConversation st t)⟩] := by
  have hids : seenIds st u t = [] := by simp [seenIds, h, optMessages]
  have happ : seenApply [] t = id := by
    funext m
    simp [seenApply]
  have hmsg : st.messages.map (seenApply [] t) = st.messages := by
    rw [happ, List.map_id]
  have hst : (seenHandler st u t).1 = st := by
    show seenUpdate st (seenIds st u t) t = st
    rw [hids]
    show { st with messages := st.messages.map (seenApply [] t) } = st
    rw [hmsg]
  refine ⟨hst, ?_, ?_⟩
  · rw [hids]
    simp [seenModCount]
  · show emitsOf [Action.findConv, Action.updateSeen,
      Action.readSummaries u, Action.readSummaries t,
      Action.emit ⟨Target.room u, "conversation",
        Payload.conversations (getConversation (seenHandler st u t).1 u)⟩,
      Action.emit ⟨Target.room t, "conversation",
        Payload.conversations (getConversation (seenHandler st u t).1 t)⟩] = _
    rw [hst]
    simp [emitsOf, Action.emitOf]

/-- Re-marking a message seen is a per-message fixpoint: the update filter
only reads the id and the author, which the update does not change. -/
theorem seenApply_idem (ids : List Nat) (t : String) (m : Message) :
    seenApply ids t (seenApply ids t m) = seenApply ids t m := by
  by_cases h : m.id ∈ ids ∧ m.msgByUserId = t
  · simp [seenApply, h]
  · simp [seenApply, h]

/-- C3: the `seen` handler flips `seen := true` exactly on the found
conversation's messages authored by the target (peer) identity: the store
update is the pointwise `seenApply` over the message collection, which
leaves viewer-authored messages and messages outside the conversation
untouched and sets `seen` on peer-authored ones; an immediately repeated
call leaves the store unchanged and its `updateMany` modifies zero
messages. -/
theorem seen_marks_exactly_peer (st : Store) (userId targetUserId : String) :
    (seenHandler st userId targetUserId).1.messages =
      st.messages.map (seenApply (seenIds st userId targetUserId) targetUserId) ∧
    (∀ m : Message, m.msgByUserId ≠ targetUserId →
      seenApply (seenIds st userId targetUserId) targetUserId m = m) ∧
    (∀ m : Message, m.id ∉ seenIds st userId targetUserId →
      seenApply (seenIds st userId targetUserId) targetUserId m = m) ∧
    (∀ m : Message, m.id ∈ seenIds st userId targetUserId → m.msgByUserId = targetUserId →
      seenApply (seenIds st userId targetUserId) targetUserId m = { m with seen := true }) ∧
    (seenHandler (seenHandler st userId targetUserId).1 userId targetUserId).1 =
      (seenHandler st userId targetUserId).1 ∧
    seenModCount (seenHandler st userId targetUserId).1
      (seenIds st userId targetUserId) targetUserId = 0 := by
  refine ⟨rfl, ?_, ?_, ?_, ?_, ?_⟩
  · intro m hm
    simp [seenApply, hm]
  · intro m hm
    simp [seenApply, hm]
  · intro m h1 h2
    simp [seenApply, h1, h2]
  · show seenUpdate (seenHandler st userId targetUserId).1
        (seenIds (seenHandler st userId targetUserId).1 userId targetUserId) targetUserId =
      (seenHandler st userId targetUserId).1
    have hids2 : seenIds (seenHandler st userId targetUserId).1 userId targetUserId =
        seenIds st userId targetUserId := rfl
    rw [hids2]
    show { (seenHandler st userId targetUserId).1 with
        messages := (seenHandler st userId targetUserId).1.messages.map
          (seenApply (seenIds st userId targetUserId) targetUserId) } =
      (seenHandler st userId targetUserId).1
    have hm2 : (seenHandler st userId targetUserId).1.messages.map
        (seenApply (seenIds st userId targetUserId) targetUserId) =
        (seenHandler st userId targetUserId).1.messages := by
      show (st.messages.map (seenApply (seenIds st userId targetUserId) targetUserId)).map
          (seenApply (seenIds st userId targetUserId) targetUserId) =
        st.messages.map (seenApply (seenIds st userId targetUserId) targetUserId)
      rw [List.map_map]
      have hcomp : seenApply (seenIds st userId targetUserId) targetUserId ∘
          seenApply (seenIds st userId targetUserId) targetUserId =
          seenApply (seenIds st userId targetUserId) targetUserId := by
        funext m
        exact seenApply_idem _ _ m
      rw [hcomp]
    rw [hm2]
  · have key : ∀ m' ∈ st.messages.map (seenApply (seenIds st userId targetUserId) targetUserId),
        (decide (m'.id ∈ seenIds st userId targetUserId) && m'.msgByUserId == targetUserId &&
          !m'.seen) = false := by
      intro m' hm'
      rcases List.mem_map.mp hm' with ⟨m, _, rfl⟩
      by_cases h1 : m.id ∈ seenIds st userId targetUserId
      · by_cases h2 : m.msgByUserId = targetUserId
        · simp [seenApply, h1, h2]
        · simp [seenApply, h1, h2]
      · simp [seenApply, h1]
    show (((seenHandler st userId targetUserId).1.messages.filter fun m =>
        decide (m.id ∈ seenIds st userId targetUserId) && m.msgByUserId == targetUserId &&
          !m.seen).length) = 0
    rw [List.length_eq_zero, List.filter_eq_nil_iff]
    intro a ha
    simp [key a ha]

theorem seen_marks_exactly_peer_witness :
    (Message.msgByUserId ⟨2, "yo", "", "", "A", false⟩ ≠ "B" ∧
      seenApply (seenIds demoStore "A" "B") "B" ⟨2, "yo", "", "", "A", false⟩ =
        ⟨2, "yo", "", "", "A", false⟩) ∧
    ((1 : Nat) ∈ seenIds demoStore "A" "B" ∧
      Message.msgByUserId ⟨1, "hi", "", "", "B", false⟩ = "B" ∧
      seenApply (seenIds demoStore "A" "B") "B" ⟨1, "hi", "", "", "B", false⟩ =
        ⟨1, "hi", "", "", "B", true⟩) ∧
    seenModCount (seenHandler demoStore "A" "B").1 (seenIds demoStore "A" "B") "B" = 0 :=
  ⟨⟨by decide, (seen_marks_exactly_peer demoStore "A" "B").2.1 ⟨2, "yo", "", "", "A", false⟩
      (by decide)⟩,
   ⟨by decide, by decide, (seen_marks_exactly_peer demoStore "A" "B").2.2.2.1
      ⟨1, "hi", "", "", "B", false⟩ (by decide) (by decide)⟩,
   (seen_marks_exactly_peer demoStore "A" "B").2.2.2.2.2⟩

theorem seen_missing_conversation_emits_witness :
    findConversation emptyStore "A" "B" = none ∧
    emitsOf (seenHandler emptyStore "A" "B").2 =
      [⟨Target.room "A", "conversation", Payload.conversations (getConversation emptyStore "A")⟩,
       ⟨Target.room "B", "conversation", Payload.conversations (getConversation emptyStore "B")⟩] :=
  ⟨rfl, (seen_missing_conversation_emits emptyStore "A" "B" rfl).2.2⟩

/-- The conversation the handler resolves is stored. -/
theorem resolved_mem (st : Store) (d : MsgData) :
    (resolveConversation st d).2 ∈ (resolveConversation st d).1.conversations := by
  unfold resolveConversation
  cases hf : findConversation st d.sender d.receiver with
  | some c => exact List.mem_of_find?_eq_some hf
  | none => simp [createConversation]

/-- The failure-free `new message` run, written out: final store and full
trace in program order. -/
theorem new_message_run_eq (userId : String) (st : Store) (d : MsgData) :
    newMessageRun userId none st d =
      (nmStore st d,
       resolveActions st d ++
         [Action.saveMsg, Action.pushMsg, Action.readConv,
          Action.emit ⟨Target.room d.sender, "message", Payload.messages (nmMessages st d)⟩,
          Action.emit ⟨Target.room d.receiver, "message", Payload.messages (nmMessages st d)⟩,
          Action.readSummaries d.sender, Action.readSummaries d.receiver,
          Action.emit ⟨Target.room d.sender, "conversation",
            Payload.conversations (getConversation (nmStore st d) d.sender)⟩,
          Action.emit ⟨Target.room d.receiver, "conversation",
            Payload.conversations (getConversation (nmStore st d) d.receiver)⟩]) := by
  cases hf : findConversation st d.sender d.receiver with
  | some c =>
    simp [newMessageRun, newMessageCont, stepFail, hf, nmStore, nmMessages,
      resolveConversation, resolveActions]
  | none =>
    simp [newMessageRun, newMessageCont, stepFail, hf, nmStore, nmMessages,
      resolveConversation, resolveActions]

/-- C4: a successfully handled `new message` event persists the message
and appends it to the conversation before any fan-out: the trace is
exactly the resolve step, the message save, the `$push`, the re-read, then
the `message` emission to the sender's and the receiver's rooms with the
persisted conversation's full message list, then the two summary reads and
the `conversation` emission to the sender's and the receiver's rooms — so
every store mutation precedes every emission, and each fan-out pair goes
to the sender's room before the receiver's room; the saved message is in
the final store, appended at the end of the conversation's sequence. -/
theorem new_message_persist_then_fanout (userId : String) (st : Store) (d : MsgData) :
    newMessageRun userId none st d =
      (nmStore st d,
       resolveActions st d ++
         [Action.saveMsg, Action.pushMsg, Action.readConv,
          Action.emit ⟨Target.room d.sender, "message", Payload.messages (nmMessages st d)⟩,
          Action.emit ⟨Target.room d.receiver, "message", Payload.messages (nmMessages st d)⟩,
          Action.readSummaries d.sender, Action.readSummaries d.receiver,
          Action.emit ⟨Target.room d.sender, "conversation",
            Payload.conversations (getConversation (nmStore st d) d.sender)⟩,
          Action.emit ⟨Target.room d.receiver, "conversation",
            Payload.conversations (getConversation (nmStore st d) d.receiver)⟩]) ∧
    persistBeforeFanout (newMessageRun userId none st d).2 = true ∧
    (saveMessage (resolveConversation st d).1 d).2 ∈ (nmStore st d).messages ∧
    (∃ c', c' ∈ (nmStore st d).conversations ∧ c'.id = (resolveConversation st d).2.id ∧
      c'.messages = (resolveConversation st d).2.messages ++
        [(saveMessage (resolveConversation st d).1 d).2.id]) := by
  refine ⟨new_message_run_eq userId st d, ?_, ?_, ?_⟩
  · have h := new_message_run_eq userId st d
    rw [h]
    cases hf : findConversation st d.sender d.receiver with
    | some c =>
      simp [resolveActions, hf, persistBeforeFanout, List.dropWhile, Action.isEmit,
        Action.isMutation, List.filter]
    | none =>
      simp [resolveActions, hf, persistBeforeFanout, List.dropWhile, Action.isEmit,
        Action.isMutation, List.filter]
  · show (saveMessage (resolveConversation st d).1 d).2 ∈
      (saveMessage (resolveConversation st d).1 d).1.messages
    simp [saveMessage]
  · refine ⟨{ (resolveConversation st d).2 with
        messages := (resolveConversation st d).2.messages ++
          [(saveMessage (resolveConversation st d).1 d).2.id],
        updatedAt := (saveMessage (resolveConversation st d).1 d).1.now }, ?_, rfl, rfl⟩
    show _ ∈ ((saveMessage (resolveConversation st d).1 d).1.conversations.map _)
    refine List.mem_map.mpr ⟨(resolveConversation st d).2, ?_, ?_⟩
    · show (resolveConversation st d).2 ∈ (resolveConversation st d).1.conversations
      exact resolved_mem st d
    · simp

/-- A failing store call aborts the handler where it stands: the trace so
far is a prefix of the failure-free trace. -/
theorem newMessageCont_trace_mono (failAt : Option Nat) (k : Nat) (st : Store)
    (c : Conversation) (d : MsgData) (tr : List Action) :
    (newMessageCont failAt k st c d tr).2 <+: (newMessageCont none k st c d tr).2 := by
  unfold newMessageCont
  simp only [stepFail_none, Bool.false_eq_true, if_false]
  by_cases h0 : stepFail failAt k
  · rw [if_pos h0]
    simp [List.append_assoc, List.prefix_append_right_inj]
  rw [if_neg (by simp [h0])]
  by_cases h1 : stepFail failAt (k+1)
  · rw [if_pos h1]
    simp [List.append_assoc, List.prefix_append_right_inj]
  rw [if_neg (by simp [h1])]
  by_cases h2 : stepFail failAt (k+2)
  · rw [if_pos h2]
    simp [List.append_assoc, List.prefix_append_right_inj]
  rw [if_neg (by simp [h2])]
  by_cases h3 : stepFail failAt (k+3)
  · rw [if_pos h3]
    simp [List.append_assoc, List.prefix_append_right_inj]
  rw [if_neg (by simp [h3])]
  by_cases h4 : stepFail failAt (k+4)
  · rw [if_pos h4]
    simp [List.append_assoc, List.prefix_append_right_inj]
  rw [if_neg (by simp [h4])]

/-- The handler tail only ever appends to the trace it is given. -/
theorem newMessageCont_extends (failAt : Option Nat) (k : Nat) (st : Store)
    (c : Conversation) (d : MsgData) (tr : List Action) :
    tr <+: (newMessageCont failAt k st c d tr).2 := by
  unfold newMessageCont
  by_cases h0 : stepFail failAt k
  · rw [if_pos h0]
  rw [if_neg (by simp [h0])]
  by_cases h1 : stepFail failAt (k+1)
  · rw [if_pos h1]
    simp
  rw [if_neg (by simp [h1])]
  by_cases h2 : stepFail failAt (k+2)
  · rw [if_pos h2]
    simp [List.append_assoc]
  rw [if_neg (by simp [h2])]
  by_cases h3 : stepFail failAt (k+3)
  · rw [if_pos h3]
    simp [List.append_assoc]
  rw [if_neg (by simp [h3])]
  by_cases h4 : stepFail failAt (k+4)
  · rw [if_pos h4]
    simp [List.append_assoc]
  rw [if_neg (by simp [h4])]
  simp [List.append_assoc]

/-- Whatever store call fails, the actions performed are a prefix of the
failure-free run's actions. -/
theorem newMessageRun_trace_mono (userId : String) (failAt : Option Nat) (st : Store)
    (d : MsgData) :
    (newMessageRun userId failAt st d).2 <+: (newMessageRun userId none st d).2 := by
  unfold newMessageRun
  simp only [stepFail_none, Bool.false_eq_true, if_false]
  by_cases h0 : stepFail failAt 0
  · rw [if_pos h0]
    cases hf : findConversation st d.sender d.receiver with
    | some c => exact List.nil_prefix
    | none => exact List.nil_prefix
  rw [if_neg (by simp [h0])]
  cases hf : findConversation st d.sender d.receiver with
  | some c => exact newMessageCont_trace_mono failAt 1 st c d [Action.findConv]
  | none =>
    by_cases h1 : stepFail failAt 1
    · rw [if_pos h1]
      refine List.IsPrefix.trans ?_ (newMessageCont_extends none 2 _ _ d _)
      exact ⟨[Action.saveConv], rfl⟩
    · rw [if_neg (by simp [h1])]
      exact newMessageCont_trace_mono failAt 2 _ _ d _

/-- Emissions of a trace prefix are a prefix of the emissions. -/
theorem emitsOf_mono {l1 l2 : List Action} (h : l1 <+: l2) :
    emitsOf l1 <+: emitsOf l2 := by
  obtain ⟨t, rfl⟩ := h
  exact ⟨emitsOf t, (List.filterMap_append _ _ _).symm⟩

/-- C5 (amended): a `StoreError` during `new message` drops the event at
the failing call — the actions performed, and in particular the emissions
performed, form a prefix of the failure-free run's (so nothing is emitted
after the failure and no success or failure signal is sent, but emissions
already made stand, which can leave the fan-out partial) — and the online
set is left untouched for every outcome. -/
theorem store_failure_drops_event (userId : String) (failAt : Option Nat)
    (s : ServerState) (d : MsgData) :
    (newMessageEvent userId failAt s d).2 <+: (newMessageEvent userId none s d).2 ∧
    emitsOf (newMessageEvent userId failAt s d).2 <+:
      emitsOf (newMessageEvent userId none s d).2 ∧
    (newMessageEvent userId failAt s d).1.online = s.online := by
  refine ⟨?_, ?_, rfl⟩
  · exact newMessageRun_trace_mono userId failAt s.store d
  · exact emitsOf_mono (newMessageRun_trace_mono userId failAt s.store d)

/-- Adding an absent element to the set appends it. -/
theorem insertSet_not_mem {u : String} {l : List String} (h : u ∉ l) :
    insertSet u l = l ++ [u] := by
  simp [insertSet, h]

/-- One well-formed join or leave preserves the presence invariant. -/
theorem presenceInv_step (st : PresenceState) (e : PEvent)
    (hv : validEvent st e = true) (hi : presenceInv st) : presenceInv (pstep st e) := by
  obtain ⟨hnd, hfst, hsnd, hmem⟩ := hi
  cases e with
  | connect sid uid =>
    simp only [validEvent, Bool.and_eq_true, Bool.not_eq_true', decide_eq_false_iff_not] at hv
    obtain ⟨hs, hu⟩ := hv
    have huo : uid ∉ st.online := fun h => hu ((hmem uid).mp h)
    refine ⟨?_, ?_, ?_, ?_⟩
    · show (insertSet uid st.online).Nodup
      rw [insertSet_not_mem huo]
      simp only [List.nodup_append, List.nodup_singleton, true_and, and_true,
        List.disjoint_singleton]
      exact ⟨hnd, huo⟩
    · show ((st.sessions ++ [(sid, uid)]).map Prod.fst).Nodup
      rw [List.map_append]
      simp only [List.nodup_append, List.nodup_singleton, true_and, and_true,
        List.disjoint_singleton, List.map_cons, List.map_nil]
      exact ⟨hfst, hs⟩
    · show ((st.sessions ++ [(sid, uid)]).map Prod.snd).Nodup
      rw [List.map_append]
      simp only [List.nodup_append, List.nodup_singleton, true_and, and_true,
        List.disjoint_singleton, List.map_cons, List.map_nil]
      exact ⟨hsnd, hu⟩
    · intro u
      show u ∈ insertSet uid st.online ↔ u ∈ (st.sessions ++ [(sid, uid)]).map Prod.snd
      rw [insertSet_not_mem huo, List.map_append]
      simp only [List.mem_append, List.mem_singleton, List.map_cons, List.map_nil]
      exact or_congr (hmem u) Iff.rfl
  | disconnect sid =>
    simp only [validEvent, decide_eq_true_eq] at hv
    show presenceInv (match st.sessions.find? (fun p => p.1 == sid) with
      | some p => ⟨st.sessions.filter (fun q => q.1 != sid), st.online.erase p.2⟩
      | none => st)
    cases hfind : st.sessions.find? (fun p => p.1 == sid) with
    | none =>
      exfalso
      rw [List.find?_eq_none] at hfind
      rcases List.mem_map.mp hv with ⟨p, hp, hpe⟩
      exact hfind p hp (by simp [hpe])
    | some p =>
      have hpmem : p ∈ st.sessions := List.mem_of_find?_eq_some hfind
      have hpid : p.1 = sid := by
        have h2 := List.find?_some hfind
        simpa using h2
      refine ⟨?_, ?_, ?_, ?_⟩
      · exact hnd.erase _
      · exact List.Nodup.sublist ((List.filter_sublist st.sessions).map Prod.fst) hfst
      · exact List.Nodup.sublist ((List.filter_sublist st.sessions).map Prod.snd) hsnd
      · intro u
        rw [List.Nodup.mem_erase_iff hnd]
        constructor
        · rintro ⟨hne, hu⟩
          rcases List.mem_map.mp ((hmem u).mp hu) with ⟨q, hq, rfl⟩
          refine List.mem_map.mpr ⟨q, List.mem_filter.mpr ⟨hq, ?_⟩, rfl⟩
          simp only [bne_iff_ne, ne_eq, decide_eq_true_eq]
          intro hqid
          exact hne (congrArg Prod.snd (List.inj_on_of_nodup_map hfst hq hpmem
            (hqid.trans hpid.symm)))
        · intro hu
          rcases List.mem_map.mp hu with ⟨q, hq, rfl⟩
          have hq2 := List.mem_filter.mp hq
          have hqs : q ∈ st.sessions := hq2.1
          have hqid : q.1 ≠ sid := by
            have h3 := hq2.2
            simpa using h3
          refine ⟨?_, (hmem q.2).mpr (List.mem_map.mpr ⟨q, hqs, rfl⟩)⟩
          intro hsnd2
          exact hqid ((congrArg Prod.fst (List.inj_on_of_nodup_map hsnd hqs hpmem
            hsnd2)).trans hpid)

/-- The invariant is preserved along any well-formed event sequence. -/
theorem presenceInv_run (st : PresenceState) (evs : List PEvent)
    (hv : validFrom st evs = true) (hi : presenceInv st) :
    presenceInv (evs.foldl pstep st) := by
  induction evs generalizing st with
  | nil => exact hi
  | cons e es ih =>
    simp only [validFrom, Bool.and_eq_true] at hv
    exact ih (pstep st e) hv.2 (presenceInv_step st e hv.1 hi)

/-- C7 (amended): `onlineUsers.add` is an idempotent join — adding an
already-present identity changes nothing — and over every well-formed
join/leave sequence in which no two concurrently open sessions share an
identity (the spec's one-session-per-identity scope), the online set stays
duplicate-free and equals exactly the set of identities of currently open
bound sessions, with no stale entry after a leave. -/
theorem presence_snapshot_correct :
    (∀ (u : String) (l : List String), u ∈ l → insertSet u l = l) ∧
    (∀ evs : List PEvent, validFrom ⟨[], []⟩ evs = true →
      presenceInv (runPresence evs)) := by
  constructor
  · intro u l h
    simp [insertSet, h]
  · intro evs hv
    exact presenceInv_run ⟨[], []⟩ evs hv ⟨List.nodup_nil, by simp, by simp, by simp⟩

theorem presence_snapshot_correct_witness :
    ("A" ∈ ["A", "B"] ∧ insertSet "A" ["A", "B"] = ["A", "B"]) ∧
    (validFrom ⟨[], []⟩ [PEvent.connect 1 "A", PEvent.connect 2 "B",
        PEvent.disconnect 1] = true ∧
      presenceInv (runPresence [PEvent.connect 1 "A", PEvent.connect 2 "B",
        PEvent.disconnect 1])) :=
  ⟨⟨by decide, presence_snapshot_correct.1 "A" ["A", "B"] (by decide)⟩,
   ⟨by decide, presence_snapshot_correct.2
      [PEvent.connect 1 "A", PEvent.connect 2 "B", PEvent.disconnect 1] (by decide)⟩⟩

/-- Head of the descending sort is the unique strict maximum. -/
theorem insertionSort_head_of_unique_max (l : List Conversation) (x : Conversation)
    (hx : x ∈ l) (hmax : ∀ y ∈ l, y ≠ x → y.updatedAt < x.updatedAt) :
    (List.insertionSort convLE l).head? = some x := by
  have hperm := List.perm_insertionSort convLE l
  have hsorted := List.sorted_insertionSort convLE l
  have hxmem : x ∈ List.insertionSort convLE l := hperm.mem_iff.mpr hx
  cases hs : List.insertionSort convLE l with
  | nil => rw [hs] at hxmem; cases hxmem
  | cons h t =>
    rw [hs] at hxmem hsorted hperm
    rcases List.mem_cons.mp hxmem with rfl | hxt
    · rfl
    · by_cases hhx : h = x
      · rw [hhx]
        rfl
      · exfalso
        have hh : convLE h x := (List.sorted_cons.mp hsorted).1 x hxt
        have hhl : h ∈ l := hperm.mem_iff.mp (List.mem_cons_self h t)
        have hlt := hmax h hhl hhx
        simp only [convLE] at hh
        omega

/-- C8: the `sidebar` handler emits exactly the summary list computed by
`getConversation`, which contains precisely the conversations involving
the identity, ordered by `updatedAt` descending; and after pushing a
message onto any stored conversation of that identity (which bumps its
`updatedAt` past every stored timestamp), that conversation is the head of
the next computed list — in particular appending to the oldest
conversation moves it to the front. -/
theorem summaries_sorted_desc (st : Store) (who : String) :
    sidebarHandler st who =
      [Action.readSummaries who,
       Action.emit ⟨Target.requester, "conversation",
         Payload.conversations (getConversation st who)⟩] ∧
    (∀ c, c ∈ getConversation st who ↔
      c ∈ st.conversations ∧ (c.sender = who ∨ c.receiver = who)) ∧
    List.Sorted convLE (getConversation st who) ∧
    (∀ (c : Conversation) (mid : Nat),
      c ∈ st.conversations → (c.sender = who ∨ c.receiver = who) →
      (st.conversations.map Conversation.id).Nodup →
      (∀ c2 ∈ st.conversations, c2.updatedAt < st.now) →
      (getConversation (pushMessage st c.id mid) who).head? =
        some { c with messages := c.messages ++ [mid], updatedAt := st.now }) := by
  refine ⟨rfl, ?_, List.sorted_insertionSort convLE _, ?_⟩
  · intro c
    unfold getConversation
    rw [(List.perm_insertionSort convLE _).mem_iff, List.mem_filter]
    simp [beq_iff_eq]
  · intro c mid hc hw hnodup hfresh
    show (List.insertionSort convLE ((pushMessage st c.id mid).conversations.filter fun c2 =>
      c2.sender == who || c2.receiver == who)).head? = _
    apply insertionSort_head_of_unique_max
    · refine List.mem_filter.mpr ⟨?_, ?_⟩
      · show _ ∈ st.conversations.map _
        refine List.mem_map.mpr ⟨c, hc, ?_⟩
        simp
      · rcases hw with h | h <;> simp [h]
    · intro y hy hne
      have hy2 := List.mem_filter.mp hy
      have hy3 : y ∈ st.conversations.map (fun c2 =>
          if c2.id == c.id then { c2 with messages := c2.messages ++ [mid], updatedAt := st.now }
          else c2) := hy2.1
      rcases List.mem_map.mp hy3 with ⟨c2, hc2, rfl⟩
      by_cases hid : c2.id == c.id
      · exfalso
        have hcc : c2 = c := List.inj_on_of_nodup_map hnodup hc2 hc (by simpa using hid)
        subst hcc
        exact hne (by simp [hid])
      · have hlt := hfresh c2 hc2
        rw [if_neg hid]
        exact hlt

theorem summaries_sorted_desc_witness :
    ((⟨0, "A", "B", [1, 2], 0⟩ : Conversation) ∈ demoStore.conversations ∧
      ((⟨0, "A", "B", [1, 2], 0⟩ : Conversation).sender = "A" ∨
        (⟨0, "A", "B", [1, 2], 0⟩ : Conversation).receiver = "A") ∧
      (demoStore.conversations.map Conversation.id).Nodup ∧
      (∀ c2 ∈ demoStore.conversations, c2.updatedAt < demoStore.now)) ∧
    (getConversation (pushMessage demoStore 0 5) "A").head? =
      some ⟨0, "A", "B", [1, 2, 5], 1⟩ :=
  ⟨⟨by decide, by decide, by decide, by decide⟩,
   (summaries_sorted_desc demoStore "A").2.2.2 ⟨0, "A", "B", [1, 2], 0⟩ 5
     (by decide) (by decide) (by decide) (by decide)⟩

end ChatApp
